import Mathlib

/-!
Verification development for the klinchainx PDF-processing service.

The embedding models the two source files:
* `src/preprocessing/preprocess.py` — the `PDFProcessor` class: input validation,
  text extraction via two strategies (PyMuPDF / PyPDF2) with `auto` fallback,
  a chunked extraction path, text cleaning, and tabular serialization.
* `src/api/app.py` — the FastAPI boundary: the in-memory task store, the
  `process_pdf` background job that drives a task through its lifecycle, and
  the rate-limiting middleware.

External libraries (PyMuPDF, PyPDF2, pandas, the filesystem) are modelled as
oracles supplied through environment records; the control flow, state updates
and string manipulation of the source are modelled directly.
-/

namespace Klinchainx

/-- A Python exception, tagged with just enough structure for the handlers in
the source: `except MemoryError` vs `except Exception`, plus the `TypeError`
raised by a call with an unexpected keyword argument. -/
inductive PyErr where
  | typeErr : String → PyErr
  | memErr : String → PyErr
  | exc : String → PyErr
deriving DecidableEq

/-- The text `str(e)` of an exception. -/
def PyErr.msg : PyErr → String
  | PyErr.typeErr m => m
  | PyErr.memErr m => m
  | PyErr.exc m => m

/-- Whether the exception is caught by an `except MemoryError` handler. -/
def PyErr.isMemory : PyErr → Bool
  | PyErr.memErr _ => true
  | _ => false

/-! ## Text cleaning (`PDFProcessor._clean_text`, preprocess.py lines 415-437) -/

/-- The characters matched by Python's `\s` regex class on `str` (and stripped
by `str.strip()`): the Unicode whitespace characters. -/
def pyWhitespace : List Char :=
  [' ', '\t', '\n', '\x0b', '\x0c', '\r',
   '\x1c', '\x1d', '\x1e', '\x1f', '\x85', ' ', ' ',
   ' ', ' ', ' ', ' ', ' ', ' ', ' ',
   ' ', ' ', ' ', ' ', ' ', ' ', ' ',
   ' ', '　']

/-- Whether a character is Python whitespace (`\s`, `str.isspace`). -/
def pyIsSpace (c : Char) : Bool := pyWhitespace.contains c

/-- Helper for `re.sub(r'\s+', ' ', text)`: the flag records whether the
previous character belonged to a whitespace run already replaced by `' '`. -/
def collapseWSAux : Bool → List Char → List Char
  | _, [] => []
  | true, c :: rest =>
    if pyIsSpace c then collapseWSAux true rest
    else c :: collapseWSAux false rest
  | false, c :: rest =>
    if pyIsSpace c then ' ' :: collapseWSAux true rest
    else c :: collapseWSAux false rest

/-- `re.sub(r'\s+', ' ', text)`: every maximal run of whitespace becomes a
single space. -/
def collapseWS (l : List Char) : List Char := collapseWSAux false l

/-- The character class `[\x00-\x08\x0B\x0C\x0E-\x1F\x7F]` removed by
`_clean_text` ("Remove non-printable characters"). -/
def isRemovedCtrl (c : Char) : Bool :=
  (c.toNat ≤ 0x08) || c.toNat == 0x0B || c.toNat == 0x0C ||
    (0x0E ≤ c.toNat && c.toNat ≤ 0x1F) || c.toNat == 0x7F

/-- `re.sub(r'[\x00-\x08\x0B\x0C\x0E-\x1F\x7F]', '', text)`. -/
def removeCtrl (l : List Char) : List Char := l.filter (fun c => !isRemovedCtrl c)

/-- `str.strip()`: drop whitespace from both ends (right end first here;
the two ends are independent). -/
def pyStrip (l : List Char) : List Char :=
  ((l.reverse.dropWhile pyIsSpace).reverse).dropWhile pyIsSpace

/-- `PDFProcessor._clean_text`: `if not text: return ""`, then collapse
whitespace runs, then remove the control-character class, then strip. -/
def pyCleanText (s : String) : String :=
  if s = "" then ""
  else String.mk (pyStrip (removeCtrl (collapseWS s.toList)))

/-- Helper for `text.split('\n')` (accumulator holds the current piece,
reversed). -/
def splitLinesAux : List Char → List Char → List (List Char)
  | acc, [] => [acc.reverse]
  | acc, c :: rest =>
    if c = '\n' then acc.reverse :: splitLinesAux [] rest
    else splitLinesAux (c :: acc) rest

/-- `text.split('\n')` from the per-page extraction loops. -/
def splitLines (s : String) : List String :=
  (splitLinesAux [] s.toList).map String.mk

/-- The per-page loop `for line in lines: line = self._clean_text(line);
if line: clean_lines.append(line)` (preprocess.py lines 253-258, 293-298,
347-352): clean every line and drop the ones that clean to the empty
string. -/
def cleanLines (lines : List String) : List String :=
  (lines.map pyCleanText).filter (fun l => l != "")

/-- Boolean check that a string has no two adjacent whitespace characters
(the "every run of whitespace collapsed to a single space" reading of the
spec). -/
def noAdjacentWSb : List Char → Bool
  | [] => true
  | [_] => true
  | a :: b :: rest => !(pyIsSpace a && pyIsSpace b) && noAdjacentWSb (b :: rest)

/-- Propositional form of `noAdjacentWSb`. -/
def noAdjacentWS (l : List Char) : Prop := noAdjacentWSb l = true

instance (l : List Char) : Decidable (noAdjacentWS l) :=
  inferInstanceAs (Decidable (_ = true))

/-- Boolean check that `pat` occurs at the start of `l`. -/
def startsWithB : List Char → List Char → Bool
  | [], _ => true
  | _ :: _, [] => false
  | a :: as_, b :: bs => a == b && startsWithB as_ bs

/-- Boolean substring check (Python's `needle in haystack`). -/
def containsSub (needle : List Char) : List Char → Bool
  | [] => needle.isEmpty
  | c :: rest => startsWithB needle (c :: rest) || containsSub needle rest

/-! ## Extraction (`PDFProcessor._extract_*`, preprocess.py lines 193-413) -/

/-- An opened PDF document as seen through either library: the page count and,
for each page index, what `page.get_text()` / `page.extract_text() or ""`
yields — a text or a raised exception (the per-page `try` bodies). -/
structure PdfDoc where
  totalPages : Nat
  pageText : Nat → Except PyErr String

/-- One entry of the `text_lines` list: the success branch stores
`{'page': n+1, 'content': clean_lines, 'page_size': len(text)}`, the per-page
error branch stores `{'page': n+1, 'content': [], 'error': str(e)}`. -/
structure PageRecord where
  page : Nat
  content : List String
  page_size : Option Nat
  error : Option String
deriving DecidableEq

/-- The external world of one extraction run: what `fitz.open` and
`PyPDF2.PdfReader` yield, the raw metadata read (`_extract_metadata`'s
`try` body), the source file name and the formatted current time. -/
structure ExtractEnv where
  pymupdfOpen : Except PyErr PdfDoc
  pypdfOpen : Except PyErr PdfDoc
  metadataRaw : Except PyErr (List (String × String))
  filename : String
  now : String

/-- The dictionary returned by `_extract_text_from_pdf` /
`_extract_text_in_chunks`: keys absent in a given branch are `none`. -/
structure ExtractionResult where
  text : List PageRecord
  metadata : List (String × String)
  filename : Option String
  extraction_method : Option String
  timestamp : Option String
  error : Option String
deriving DecidableEq

/-- The shared per-page body of all three extraction loops (preprocess.py
lines 248-273, 288-313, 344-366): split, clean, and record the page, or
record the page-local error with empty content. -/
def extractPage (doc : PdfDoc) (pageNum : Nat) : PageRecord :=
  match doc.pageText pageNum with
  | Except.ok text =>
    { page := pageNum + 1, content := cleanLines (splitLines text),
      page_size := some (text.toList.length), error := none }
  | Except.error e =>
    { page := pageNum + 1, content := [], page_size := none, error := some e.msg }

/-- `PDFProcessor._extract_with_pymupdf`: open with fitz and extract every
page in order; an exception from the open is re-raised. -/
def extract_with_pymupdf (env : ExtractEnv) : Except PyErr (List PageRecord) :=
  match env.pymupdfOpen with
  | Except.error e => Except.error e
  | Except.ok doc => Except.ok ((List.range doc.totalPages).map (extractPage doc))

/-- `PDFProcessor._extract_with_pypdf`: same loop over the PyPDF2 reader. -/
def extract_with_pypdf (env : ExtractEnv) : Except PyErr (List PageRecord) :=
  match env.pypdfOpen with
  | Except.error e => Except.error e
  | Except.ok doc => Except.ok ((List.range doc.totalPages).map (extractPage doc))

/-- `PDFProcessor._extract_metadata`: best-effort; any exception yields `{}`. -/
def extract_metadata (env : ExtractEnv) : List (String × String) :=
  match env.metadataRaw with
  | Except.ok m => m
  | Except.error _ => []

/-- Python's `range(start, stop, step)` for a positive step. -/
def pyRangeStep (start stop step : Nat) : List Nat :=
  List.range' start ((stop - start + step - 1) / step) step

/-- The `text_lines.extend(chunk_text)` accumulation: concatenate the blocks
produced for each element of a list. -/
def listJoinMap (f : α → List β) : List α → List β
  | [] => []
  | a :: l => f a ++ listJoinMap f l

/-- ASCII lowercasing, modelling Python's `str.lower()` on the method and
format strings used here. -/
def strToLower (s : String) : String := String.mk (s.toList.map Char.toLower)

/-- Stored configuration of a `PDFProcessor` (its `__init__` assigns
`self.output_format = output_format.lower()` and the rest verbatim). -/
structure ProcCfg where
  output_format : String
  chunk_size : Nat
  max_workers : Nat
  extraction_method : String
  include_metadata : Bool

/-- `PDFProcessor._extract_text_in_chunks` (preprocess.py lines 321-389):
re-open with fitz, partition the page indices into groups of
`min(20, max(1, total_pages // 10))` consecutive pages, extract group by
group and concatenate; any exception yields the diagnostic dictionary. -/
def extract_text_in_chunks (cfg : ProcCfg) (env : ExtractEnv) : ExtractionResult :=
  match env.pymupdfOpen with
  | Except.error e =>
    { text := [], metadata := [], filename := some env.filename,
      extraction_method := none, timestamp := some env.now,
      error := some ("Chunk processing failed: " ++ e.msg) }
  | Except.ok doc =>
    let total := doc.totalPages
    let cs := min 20 (max 1 (total / 10))
    let pages := listJoinMap
      (fun start =>
        (List.range' start (min (start + cs - 1) (total - 1) + 1 - start)).map
          (extractPage doc))
      (pyRangeStep 0 total cs)
    { text := pages,
      metadata := if cfg.include_metadata then extract_metadata env else [],
      filename := some env.filename, extraction_method := some "chunked",
      timestamp := some env.now, error := none }

/-- `PDFProcessor._extract_text_from_pdf` (preprocess.py lines 193-237):
extract metadata, dispatch on the lowercased method — `auto` tries PyMuPDF
and on any exception falls back to PyPDF2 from scratch, `pymupdf` uses
PyMuPDF only, anything else uses PyPDF2 only — then build the result
dictionary; `except MemoryError` retries in chunks, `except Exception`
yields the error dictionary. -/
def extract_text_from_pdf (cfg : ProcCfg) (env : ExtractEnv) : ExtractionResult :=
  let method := strToLower cfg.extraction_method
  let metadata := if cfg.include_metadata then extract_metadata env else []
  let attempt : Except PyErr (List PageRecord) :=
    if method = "auto" then
      match extract_with_pymupdf env with
      | Except.ok tl => Except.ok tl
      | Except.error _ => extract_with_pypdf env
    else if method = "pymupdf" then
      extract_with_pymupdf env
    else
      extract_with_pypdf env
  match attempt with
  | Except.ok tl =>
    { text := tl, metadata := metadata, filename := some env.filename,
      extraction_method := some method, timestamp := some env.now, error := none }
  | Except.error e =>
    if e.isMemory then extract_text_in_chunks cfg env
    else
      { text := [], metadata := [], filename := none, extraction_method := none,
        timestamp := none, error := some e.msg }

/-! ## Serialization (`PDFProcessor._save_text_data`, preprocess.py lines 439-527) -/

/-- One flattened output row: `{'page': ..., 'text': ..., **common_metadata}`,
plus the `'error'` key present only on the diagnostic row. -/
structure Row where
  page : Nat
  text : String
  common : List (String × String)
  error : Option String
deriving DecidableEq

/-- The `common_metadata` dictionary: filename, extraction method, timestamp
(each defaulting to `''`), then every metadata entry under a `metadata_`
prefixed key. -/
def common_metadata (td : ExtractionResult) : List (String × String) :=
  [("filename", td.filename.getD ""),
   ("extraction_method", td.extraction_method.getD ""),
   ("timestamp", td.timestamp.getD "")] ++
    td.metadata.map (fun kv => ("metadata_" ++ kv.1, kv.2))

/-- The flattening loop: one row per (page, content line) pair, in order. -/
def flattenRows (td : ExtractionResult) : List Row :=
  listJoinMap
    (fun p => p.content.map (fun line =>
      { page := p.page, text := line, common := common_metadata td, error := none }))
    td.text

/-- Lines 478-486 of preprocess.py: the rows actually serialized — if the
flattened data is empty, a single diagnostic row
`{'page': 0, 'text': '', **common_metadata, 'error': ...}` is emitted
carrying `text_data.get('error', 'No text extracted')`. -/
def serializeRows (td : ExtractionResult) : List Row :=
  let fd := flattenRows td
  if fd.isEmpty then
    [{ page := 0, text := "", common := common_metadata td,
       error := some (td.error.getD "No text extracted") }]
  else fd

/-- Total number of content lines across all pages of an extraction result. -/
def totalContentLines (td : ExtractionResult) : Nat :=
  (td.text.map (fun p => p.content.length)).sum

/-- `Path(output_file).with_suffix('.csv')` for the default branch of
`_save_text_data`: replace the text after the last dot, or append `.csv`. -/
def withSuffixCsv (p : String) : String :=
  let r := p.toList.reverse
  if r.contains '.' then
    String.mk ((r.dropWhile (fun c => c != '.')).drop 1).reverse ++ ".csv"
  else p ++ ".csv"

/-- The path returned by `_save_text_data` on a successful write: the given
output file for the three recognized formats, otherwise the path with its
suffix replaced by `.csv`. -/
def savePath (fmt : String) (outputFile : String) : String :=
  if fmt = "csv" ∨ fmt = "json" ∨ fmt = "parquet" then outputFile
  else withSuffixCsv outputFile

/-! ## Input validation and `process_file` (preprocess.py lines 61-191) -/

instance {ε α : Type} [DecidableEq ε] [DecidableEq α] : DecidableEq (Except ε α) :=
  fun x y =>
    match x, y with
    | Except.ok a, Except.ok b =>
      if h : a = b then isTrue (by rw [h]) else isFalse (fun hx => h (Except.ok.inj hx))
    | Except.ok _, Except.error _ => isFalse (fun hx => Except.noConfusion hx)
    | Except.error _, Except.ok _ => isFalse (fun hx => Except.noConfusion hx)
    | Except.error a, Except.error b =>
      if h : a = b then isTrue (by rw [h]) else isFalse (fun hx => h (Except.error.inj hx))

/-- The facts about the uploaded file that `_validate_input_file` consults:
existence, the lowercased path suffix, and the result of reading the first
five bytes. -/
structure InputFile where
  fileExists : Bool
  suffixLower : String
  header5 : Except PyErr (List Nat)
deriving DecidableEq

/-- The canonical PDF signature `b'%PDF-'`. -/
def pdfMagic : List Nat := [0x25, 0x50, 0x44, 0x46, 0x2D]

/-- `PDFProcessor._validate_input_file`: the file must exist, have suffix
`.pdf`, and its first five bytes must read successfully and equal `%PDF-`.
(The size check at lines 176-178 only logs a warning.) -/
def validate_input_file (f : InputFile) : Bool :=
  if !f.fileExists then false
  else if f.suffixLower != ".pdf" then false
  else match f.header5 with
    | Except.error _ => false
    | Except.ok h => h == pdfMagic

/-- The description `_validate_input_file` writes to the log for a failing
input (without the trailing file path), `none` when validation passes. -/
def validationLogText (f : InputFile) : Option String :=
  if !f.fileExists then some "File does not exist"
  else if f.suffixLower != ".pdf" then some "File is not a PDF"
  else match f.header5 with
    | Except.error e => some ("Error validating file: " ++ e.msg)
    | Except.ok h =>
      if h == pdfMagic then none
      else some "File is not a valid PDF (invalid header)"

/-- The pipeline stages named by the spec. -/
inductive Stage where
  | validation
  | extraction
  | serialization
deriving DecidableEq

/-- `PDFProcessor.process_file` (preprocess.py lines 61-101): validate (on
failure return `""` at once), then extract and serialize. The returned list
records which stages ran. Internal exceptions cannot escape `_extract_text_from_pdf`
or `_save_text_data` (both catch everything), so the surrounding
`except Exception` branch is unreachable; write failures are not modelled
(the save is taken to succeed and return its target path). -/
def process_file (cfg : ProcCfg) (f : InputFile) (env : ExtractEnv)
    (outputFile : String) : String × List Stage :=
  if !(validate_input_file f) then ("", [Stage.validation])
  else
    let _td := extract_text_from_pdf cfg env
    (savePath cfg.output_format outputFile,
     [Stage.validation, Stage.extraction, Stage.serialization])

/-! ## The task lifecycle (`app.py`) -/

/-- The form fields of `POST /api/upload` forwarded to `process_pdf`. -/
structure UploadReq where
  output_format : String
  extraction_method : String
  include_metadata : Bool
  text_only : Bool

/-- The `TaskStatus` record held in the in-memory `tasks` store
(app.py lines 97-104). -/
structure TaskState where
  status : String
  progress : Nat
  result_file : Option String
  message : Option String
  scheduled_for_deletion : Bool
deriving DecidableEq

/-- The task as created by the upload handler (app.py lines 150-155). -/
def initialTask : TaskState :=
  { status := "pending", progress := 0, result_file := none,
    message := some "Preparing to process PDF", scheduled_for_deletion := false }

/-- Everything outside `process_pdf` that its run depends on: the request
options, the uploaded file, the extraction world, the two paths, the
`os.path.exists` oracle for the result file, and the interpreter's text for
the `TypeError` raised by a call with an unexpected keyword argument. -/
structure ProcEnv where
  req : UploadReq
  file : InputFile
  ext : ExtractEnv
  pdfPath : String
  outputFile : String
  resultExists : String → Bool
  ctorErrMsg : String

/-- The successive values of `tasks[task_id]` produced by one run of
`process_pdf` (app.py lines 242-294), one list entry per assignment to the
store, starting from the state the upload handler created. `ctor` is the
outcome of the `PDFProcessor(...)` call at lines 261-268; every later
operation in the `try` block is total (see `process_file`), so it is the
only exception source feeding the `except Exception` handler. -/
def process_pdf_states (ctor : Except PyErr Unit) (env : ProcEnv) : List TaskState :=
  let s0 := initialTask
  let s1 := { s0 with status := "processing" }
  let s2 := { s1 with progress := 10 }
  let s3 := { s2 with message := some "Processing started" }
  match ctor with
  | Except.error e =>
    let f1 := { s3 with status := "failed" }
    let f2 := { f1 with progress := 0 }
    let f3 := { f2 with message := some ("Processing failed: " ++ e.msg) }
    [s0, s1, s2, s3, f1, f2, f3]
  | Except.ok _ =>
    let cfg : ProcCfg :=
      { output_format := strToLower env.req.output_format, chunk_size := 1000,
        max_workers := 2, extraction_method := env.req.extraction_method,
        include_metadata := env.req.include_metadata }
    let s4 := { s3 with progress := 20 }
    let s5 := { s4 with message := some "Validating PDF" }
    let rf := (process_file cfg env.file env.ext env.outputFile).1
    if rf ≠ "" ∧ env.resultExists rf = true then
      let c1 := { s5 with status := "completed" }
      let c2 := { c1 with progress := 100 }
      let c3 := { c2 with result_file := some rf }
      let c4 := { c3 with message := some "Processing completed successfully" }
      [s0, s1, s2, s3, s4, s5, c1, c2, c3, c4]
    else
      let f1 := { s5 with status := "failed" }
      let f2 := { f1 with progress := 0 }
      let f3 := { f2 with message := some "Processing failed - no output file generated" }
      [s0, s1, s2, s3, s4, s5, f1, f2, f3]

/-- The keyword parameters accepted by `PDFProcessor.__init__`
(preprocess.py lines 35-40). -/
def PDFProcessor_init_params : List String :=
  ["output_format", "chunk_size", "max_workers", "extraction_method",
   "include_metadata"]

/-- The keyword arguments passed in the `PDFProcessor(...)` call inside
`process_pdf` (app.py lines 261-268). -/
def process_pdf_ctor_kwargs : List String :=
  ["output_format", "chunk_size", "max_workers", "extraction_method",
   "include_metadata", "text_only"]

/-- Keyword arguments of the call that `__init__` does not accept; Python
raises `TypeError` for the call exactly when this list is nonempty. -/
def ctorUnexpectedKeywords : List String :=
  process_pdf_ctor_kwargs.filter (fun k => !(PDFProcessor_init_params.contains k))

/-- The actual run of `process_pdf`: the constructor call raises `TypeError`
exactly when it passes an unexpected keyword argument, with interpreter-chosen
text `env.ctorErrMsg`. -/
def process_pdf_run (env : ProcEnv) : List TaskState :=
  process_pdf_states
    (if ctorUnexpectedKeywords.isEmpty then Except.ok ()
     else Except.error (PyErr.typeErr env.ctorErrMsg))
    env

/-- The `finally` clause (app.py lines 295-301): if the uploaded file still
exists, unlink it. -/
def finallyCleanup (fs : String → Bool) (pdfPath : String) : String → Bool :=
  if fs pdfPath then (fun p => if p = pdfPath then false else fs p) else fs

/-- A full run of `process_pdf`: the task-state trace together with the
filesystem after the `finally` clause, which Python executes on every exit
path of the `try`/`except` above it. -/
def process_pdf_full (ctor : Except PyErr Unit) (env : ProcEnv)
    (fs : String → Bool) : List TaskState × (String → Bool) :=
  (process_pdf_states ctor env, finallyCleanup fs env.pdfPath)

/-- Adjacent status transitions permitted by the lifecycle: stay, start
processing, or settle from processing into a terminal state. -/
def statusStep (a b : String) : Prop :=
  a = b ∨ (a = "pending" ∧ b = "processing") ∨
    (a = "processing" ∧ (b = "completed" ∨ b = "failed"))

instance (a b : String) : Decidable (statusStep a b) :=
  inferInstanceAs (Decidable (_ ∨ _))

/-- Adjacent progress transitions permitted by the spec: non-decreasing,
except that the transition into `failed` resets progress to 0. -/
def progressStep (a b : TaskState) : Prop :=
  a.progress ≤ b.progress ∨ (b.status = "failed" ∧ b.progress = 0)

instance (a b : TaskState) : Decidable (progressStep a b) :=
  inferInstanceAs (Decidable (_ ∨ _))

/-! ## Rate limiting (`RateLimitMiddleware`, app.py lines 54-82)

Timestamps are modelled as integers (`time.time()` returns a real-valued
timestamp; nothing in the middleware depends on fractional values, only on
ordering and differences). -/

/-- The middleware's `self.requests` dictionary: client address to the list
of admitted request times, in insertion order. -/
abbrev RLStore := List (String × List Int)

/-- `v[-1]` on a (always nonempty) time list. -/
def lastTime (l : List Int) : Int := l.getLastD 0

/-- Lines 66-67: drop every entry whose last admitted request is at least
`window` old. -/
def rlCleanup (window now : Int) (st : RLStore) : RLStore :=
  st.filter (fun kv => now - lastTime kv.2 < window)

/-- Dictionary lookup `self.requests[client_ip]`. -/
def rlLookup (st : RLStore) (c : String) : Option (List Int) :=
  (st.find? (fun kv => kv.1 == c)).map (fun kv => kv.2)

/-- In-place `self.requests[client_ip].append(current_time)`. -/
def rlAppend (st : RLStore) (c : String) (now : Int) : RLStore :=
  st.map (fun kv => if kv.1 == c then (kv.1, kv.2 ++ [now]) else kv)

/-- `RateLimitMiddleware.dispatch` up to the admit/reject decision: clean up
expired entries, then reject with 429 if the client already has
`max_requests` recorded times in the window, otherwise record this request
and admit it. Returns the new store and whether the request was admitted. -/
def rlDispatch (maxRequests : Nat) (window : Int) (st : RLStore) (c : String)
    (now : Int) : RLStore × Bool :=
  let st := rlCleanup window now st
  match rlLookup st c with
  | some v =>
    if maxRequests ≤ v.length then (st, false)
    else (rlAppend st c now, true)
  | none => (st ++ [(c, [now])], true)

/-- Feed a sequence of requests from one client through the middleware,
collecting the admit/reject decisions. -/
def rlRun (maxRequests : Nat) (window : Int) (st : RLStore) (c : String) :
    List Int → RLStore × List Bool
  | [] => (st, [])
  | t :: ts =>
    let p := rlDispatch maxRequests window st c t
    let q := rlRun maxRequests window p.1 c ts
    (q.1, p.2 :: q.2)

/-- The instance mounted on the app (app.py line 82):
`max_requests=5, window_seconds=10`. -/
def apiMaxRequests : Nat := 5

/-- The mounted window, in seconds. -/
def apiWindowSeconds : Int := 10

/-! ## Concrete fixtures used to evaluate the theorems on explicit inputs -/

/-- A small healthy two-page document. -/
def wDoc : PdfDoc :=
  { totalPages := 2, pageText := fun _ => Except.ok "Hello world\nSecond line" }

/-- A healthy extraction world: both libraries open `wDoc`, metadata reads. -/
def wEnvOk : ExtractEnv :=
  { pymupdfOpen := Except.ok wDoc, pypdfOpen := Except.ok wDoc,
    metadataRaw := Except.ok [("pages", "2")], filename := "t.pdf",
    now := "2026-10-12 00:00:00" }

/-- A valid uploaded PDF file. -/
def wFileOk : InputFile :=
  { fileExists := true, suffixLower := ".pdf", header5 := Except.ok pdfMagic }

/-- An existing `.pdf`-named file whose first five bytes are not `%PDF-`. -/
def wFileBadHeader : InputFile :=
  { fileExists := true, suffixLower := ".pdf", header5 := Except.ok [0, 0, 0, 0, 0] }

/-- A typical upload request. -/
def wReq : UploadReq :=
  { output_format := "csv", extraction_method := "auto",
    include_metadata := true, text_only := false }

/-- The stored configuration such a request would produce. -/
def wCfg : ProcCfg :=
  { output_format := "csv", chunk_size := 1000, max_workers := 2,
    extraction_method := "auto", include_metadata := true }

/-- A healthy run environment for `process_pdf`. -/
def wProcEnv : ProcEnv :=
  { req := wReq, file := wFileOk, ext := wEnvOk, pdfPath := "uploads/t.pdf",
    outputFile := "results/t.csv", resultExists := fun _ => true,
    ctorErrMsg := "unexpected keyword argument" }

/-- A run environment whose uploaded file fails header validation. -/
def wProcEnvBad : ProcEnv :=
  { req := wReq, file := wFileBadHeader, ext := wEnvOk, pdfPath := "uploads/t.pdf",
    outputFile := "results/t.csv", resultExists := fun _ => true,
    ctorErrMsg := "unexpected keyword argument" }

/-- A 25-page document (so the chunked path uses several chunks), with every
seventh-ish page raising a per-page error. -/
def w8Doc : PdfDoc :=
  { totalPages := 25,
    pageText := fun n =>
      if n % 7 == 3 then Except.error (PyErr.exc "bad page")
      else Except.ok "Hello world\nSecond line" }

/-- An extraction world built around `w8Doc`. -/
def w8Env : ExtractEnv :=
  { pymupdfOpen := Except.ok w8Doc, pypdfOpen := Except.ok w8Doc,
    metadataRaw := Except.ok [("pages", "25")], filename := "big.pdf",
    now := "2026-10-12 00:00:00" }

/-- A world where PyMuPDF raises on open but PyPDF2 works. -/
def w4Env : ExtractEnv :=
  { pymupdfOpen := Except.error (PyErr.exc "pymupdf broken"),
    pypdfOpen := Except.ok wDoc,
    metadataRaw := Except.ok [("pages", "2")], filename := "t.pdf",
    now := "2026-10-12 00:00:00" }

/-- An extraction result whose pages carry no content lines at all. -/
def wTdEmpty : ExtractionResult :=
  { text := [{ page := 1, content := [], page_size := some 0, error := none }],
    metadata := [], filename := some "t.pdf", extraction_method := some "auto",
    timestamp := some "2026-10-12 00:00:00", error := none }

/-! ## Helper lemmas -/

theorem listJoinMap_length (f : α → List β) (l : List α) :
    (listJoinMap f l).length = (l.map (fun a => (f a).length)).sum := by
  induction l with
  | nil => rfl
  | cons a l ih => simp [listJoinMap, ih]

theorem flattenRows_length (td : ExtractionResult) :
    (flattenRows td).length = totalContentLines td := by
  unfold flattenRows totalContentLines
  rw [listJoinMap_length]
  simp

/-- In every branch, `process_pdf` leaves the task in a terminal state. -/
theorem lastStatusTerminal (ctor : Except PyErr Unit) (env : ProcEnv) :
    ((process_pdf_states ctor env).getLastD initialTask).status = "completed" ∨
    ((process_pdf_states ctor env).getLastD initialTask).status = "failed" := by
  cases ctor with
  | error e => simp [process_pdf_states]
  | ok u =>
    simp only [process_pdf_states]
    split
    · simp
    · simp

/-! ## Claim theorems -/

/-- C2: the `PDFProcessor(...)` call in `process_pdf` passes the keyword
argument `text_only`, which `PDFProcessor.__init__` does not accept, so the
construction raises `TypeError`; the `except Exception` handler records
`failed` with progress 0, and no run of the background job ever stores a
`completed` status. -/
theorem c2_ctor_text_only_type_error :
    ctorUnexpectedKeywords = ["text_only"] ∧
    ∀ env : ProcEnv,
      ((process_pdf_run env).getLastD initialTask).status = "failed" ∧
      ((process_pdf_run env).getLastD initialTask).progress = 0 ∧
      ((process_pdf_run env).getLastD initialTask).message =
        some ("Processing failed: " ++ env.ctorErrMsg) ∧
      ∀ s ∈ process_pdf_run env, s.status ≠ "completed" := by
  refine ⟨by decide, fun env => ?_⟩
  have hk : ctorUnexpectedKeywords.isEmpty = false := by decide
  simp only [process_pdf_run, hk, if_neg Bool.false_ne_true, process_pdf_states]
  refine ⟨rfl, rfl, rfl, ?_⟩
  intro s hs
  simp only [List.mem_cons, List.not_mem_nil, or_false] at hs
  rcases hs with h | h | h | h | h | h | h <;> subst h <;>
    first
    | exact (by decide : ("pending" : String) ≠ "completed")
    | exact (by decide : ("processing" : String) ≠ "completed")
    | exact (by decide : ("failed" : String) ≠ "completed")

/-- C2 witness: on a concrete environment, the task created by the upload
handler never shows `completed`. -/
theorem c2_witness : initialTask.status ≠ "completed" :=
  (c2_ctor_text_only_type_error.2 wProcEnv).2.2.2 initialTask (by decide)

/-- C3: whatever the constructor outcome, the extraction world and the
initial filesystem, a run of `process_pdf` ends in a terminal state and the
`finally` clause has removed the uploaded source file. -/
theorem c3_upload_file_deleted (ctor : Except PyErr Unit) (env : ProcEnv)
    (fs : String → Bool) :
    (((process_pdf_full ctor env fs).1.getLastD initialTask).status = "completed" ∨
      ((process_pdf_full ctor env fs).1.getLastD initialTask).status = "failed") ∧
    (process_pdf_full ctor env fs).2 env.pdfPath = false := by
  refine ⟨lastStatusTerminal ctor env, ?_⟩
  simp only [process_pdf_full, finallyCleanup]
  split
  · simp
  · next h => simpa using h

/-- C5: the serializer always emits at least one row, and when the
extraction result carries zero content lines in total it emits exactly the
single diagnostic row with the error text. -/
theorem c5_diagnostic_row (td : ExtractionResult) :
    1 ≤ (serializeRows td).length ∧
    (totalContentLines td = 0 →
      serializeRows td =
        [{ page := 0, text := "", common := common_metadata td,
           error := some (td.error.getD "No text extracted") }]) := by
  unfold serializeRows
  by_cases h : (flattenRows td).isEmpty = true
  · simp [h]
  · have hne : flattenRows td ≠ [] := by
      simpa [List.isEmpty_iff] using h
    have hlen := flattenRows_length td
    constructor
    · simp only [if_neg h]
      exact List.length_pos.mpr hne
    · intro h0
      exfalso
      rw [h0] at hlen
      exact hne (List.eq_nil_of_length_eq_zero hlen)

/-- C5 witness: a concrete extraction result with a page but no content
lines serializes to exactly the diagnostic row. -/
theorem c5_witness :
    serializeRows wTdEmpty =
      [{ page := 0, text := "", common := common_metadata wTdEmpty,
         error := some (wTdEmpty.error.getD "No text extracted") }] :=
  (c5_diagnostic_row wTdEmpty).2 (by decide)

/-- C6: `result_file` is non-null exactly on `completed` tasks — over every
state an actual run of `process_pdf` ever stores (the constructor raise
keeps all of them away from `completed` with `result_file` unset), and over
the settled final state of the job for any constructor outcome (had the
constructor succeeded, the completed branch records `result_file` and the
failed branches leave it unset). -/
theorem c6_result_file_iff_completed (env : ProcEnv) :
    (∀ s ∈ process_pdf_run env, (s.result_file ≠ none ↔ s.status = "completed")) ∧
    (∀ ctor : Except PyErr Unit,
      (((process_pdf_states ctor env).getLastD initialTask).result_file ≠ none ↔
        ((process_pdf_states ctor env).getLastD initialTask).status = "completed")) := by
  constructor
  · intro s hs
    have hk : ctorUnexpectedKeywords.isEmpty = false := by decide
    simp only [process_pdf_run, hk, if_neg Bool.false_ne_true,
      process_pdf_states] at hs
    simp only [List.mem_cons, List.not_mem_nil, or_false] at hs
    rcases hs with h | h | h | h | h | h | h <;> subst h <;>
      simp [initialTask]
  · intro ctor
    cases ctor with
    | error e => simp [process_pdf_states, initialTask]
    | ok u =>
      simp only [process_pdf_states]
      split
      · simp
      · simp [initialTask]

/-- C6 witness: the invariant evaluated on a state of a concrete run. -/
theorem c6_witness :
    initialTask.result_file ≠ none ↔ initialTask.status = "completed" :=
  (c6_result_file_iff_completed wProcEnv).1 initialTask (by decide)

/-- C7 counterexample: an existing `.pdf` file whose first five bytes are not
`%PDF-` fails validation with the logged description "File is not a valid PDF
(invalid header)", yet the task's failure message (even granting a successful
`PDFProcessor` construction) is the generic "Processing failed - no output
file generated", which does not contain that description — the claim that the
task fails "with a descriptive message identifying the validation failure" is
false on this input. -/
theorem c7_counterexample :
    validate_input_file wFileBadHeader = false ∧
    validationLogText wFileBadHeader = some "File is not a valid PDF (invalid header)" ∧
    ((process_pdf_states (Except.ok ()) wProcEnvBad).getLastD initialTask).status
      = "failed" ∧
    ((process_pdf_states (Except.ok ()) wProcEnvBad).getLastD initialTask).message
      = some "Processing failed - no output file generated" ∧
    containsSub ("invalid header").toList
      ("Processing failed - no output file generated").toList = false := by
  decide

/-- C7 amended: an input that fails the adapter's validation makes
`process_file` return the empty path at once — the extraction and
serialization stages never run — and the task transitions to `failed`; but
the stored message is the generic "no output file generated" text (or the
`TypeError` text in the actual constructor-raising run), not a description
of the validation failure, which only goes to the log. -/
theorem c7_amended_validation (cfg : ProcCfg) (f : InputFile) (ext : ExtractEnv)
    (out : String) (env : ProcEnv)
    (h1 : validate_input_file f = false)
    (h2 : validate_input_file env.file = false) :
    process_file cfg f ext out = ("", [Stage.validation]) ∧
    Stage.extraction ∉ (process_file cfg f ext out).2 ∧
    Stage.serialization ∉ (process_file cfg f ext out).2 ∧
    ((process_pdf_states (Except.ok ()) env).getLastD initialTask).status
      = "failed" ∧
    ((process_pdf_states (Except.ok ()) env).getLastD initialTask).message
      = some "Processing failed - no output file generated" := by
  have hpf : process_file cfg f ext out = ("", [Stage.validation]) := by
    unfold process_file
    rw [h1]
    rfl
  refine ⟨hpf, by rw [hpf]; decide, by rw [hpf]; decide, ?_, ?_⟩ <;>
  · simp only [process_pdf_states]
    unfold process_file
    rw [h2]
    simp

/-- C7 witness for the amended claim: the concrete bad-header input. -/
theorem c7_witness :
    process_file wCfg wFileBadHeader wEnvOk "results/t.csv" = ("", [Stage.validation]) :=
  (c7_amended_validation wCfg wFileBadHeader wEnvOk "results/t.csv" wProcEnvBad
    (by decide) (by decide)).1

/-- C1: over every constructor outcome and environment, the stored task
trace starts at `pending`, passes through `processing`, ends in a terminal
state, only ever steps pending→processing→{completed,failed}, has
non-decreasing progress between consecutive stored states except for the
reset to 0 on the transition into `failed`, and a task that settles as
`completed` settles with progress 100. -/
theorem c1_task_lifecycle (ctor : Except PyErr Unit) (env : ProcEnv) :
    ((process_pdf_states ctor env).headD initialTask).status = "pending" ∧
    "processing" ∈ (process_pdf_states ctor env).map (fun s => s.status) ∧
    (((process_pdf_states ctor env).getLastD initialTask).status = "completed" ∨
      ((process_pdf_states ctor env).getLastD initialTask).status = "failed") ∧
    List.Chain' (fun a b => statusStep a.status b.status)
      (process_pdf_states ctor env) ∧
    List.Chain' progressStep (process_pdf_states ctor env) ∧
    (((process_pdf_states ctor env).getLastD initialTask).status = "completed" →
      ((process_pdf_states ctor env).getLastD initialTask).progress = 100) := by
  refine ⟨?_, ?_, lastStatusTerminal ctor env, ?_, ?_, ?_⟩ <;>
    cases ctor with
    | error e =>
      simp [process_pdf_states, initialTask, List.chain'_cons,
        List.chain'_singleton, statusStep, progressStep]
    | ok u =>
      simp only [process_pdf_states]
      split <;>
        simp [initialTask, List.chain'_cons, List.chain'_singleton,
          statusStep, progressStep]

/-- C1 witness: a healthy concrete run (with a succeeding constructor)
settles as `completed` and its settled progress is 100. -/
theorem c1_witness :
    ((process_pdf_states (Except.ok ()) wProcEnv).getLastD initialTask).progress = 100 :=
  (c1_task_lifecycle (Except.ok ()) wProcEnv).2.2.2.2.2 (by decide)

/-- C4: with method `auto`, if PyMuPDF raises then the whole extraction is
redone with PyPDF2 and, when that succeeds, its pages are the result
verbatim (no partial results from the failed attempt); with an explicitly
selected method, the other strategy is never consulted — a non-memory
failure of the selected strategy yields the error dictionary even in
environments where the other strategy would have succeeded. -/
theorem c4_auto_fallback (cfg : ProcCfg) (env : ExtractEnv) :
    (strToLower cfg.extraction_method = "auto" →
      ∀ e tl, extract_with_pymupdf env = Except.error e →
        extract_with_pypdf env = Except.ok tl →
        (extract_text_from_pdf cfg env).text = tl ∧
        (extract_text_from_pdf cfg env).error = none) ∧
    (strToLower cfg.extraction_method = "pymupdf" →
      ∀ e, extract_with_pymupdf env = Except.error e → e.isMemory = false →
        extract_text_from_pdf cfg env =
          { text := [], metadata := [], filename := none,
            extraction_method := none, timestamp := none,
            error := some e.msg }) ∧
    (strToLower cfg.extraction_method ≠ "auto" →
      strToLower cfg.extraction_method ≠ "pymupdf" →
      ∀ e, extract_with_pypdf env = Except.error e → e.isMemory = false →
        extract_text_from_pdf cfg env =
          { text := [], metadata := [], filename := none,
            extraction_method := none, timestamp := none,
            error := some e.msg }) := by
  refine ⟨?_, ?_, ?_⟩
  · intro hm e tl h1 h2
    simp [extract_text_from_pdf, hm, h1, h2]
  · intro hm e h1 hmem
    simp [extract_text_from_pdf, hm, h1, hmem]
  · intro hne1 hne2 e h1 hmem
    simp [extract_text_from_pdf, hne1, hne2, h1, hmem]

/-- C4 witness: with `auto`, a broken PyMuPDF open and a healthy PyPDF2, the
result's pages are exactly the PyPDF2 pages. -/
theorem c4_witness :
    (extract_text_from_pdf wCfg w4Env).text =
      (List.range wDoc.totalPages).map (extractPage wDoc) :=
  ((c4_auto_fallback wCfg w4Env).1 (by decide) (PyErr.exc "pymupdf broken")
    ((List.range wDoc.totalPages).map (extractPage wDoc)) rfl rfl).1

theorem map_listJoinMap (g : β → γ) (f : α → List β) (l : List α) :
    listJoinMap (fun a => (f a).map g) l = (listJoinMap f l).map g := by
  induction l with
  | nil => rfl
  | cons a l ih => simp [listJoinMap, ih]

theorem range1_concat (s m n : Nat) :
    List.range' s m ++ List.range' (s + m) n = List.range' s (m + n) := by
  have h := List.range'_append s m n 1
  rw [Nat.add_comm n m] at h
  simpa using h

/-- Concatenating the chunk page ranges of `_extract_text_in_chunks`
reconstructs the full contiguous page range. -/
theorem chunk_partition (total cs : Nat) (hcs : 1 ≤ cs) (htot : 1 ≤ total) :
    ∀ k s, listJoinMap
        (fun st => List.range' st (min (st + cs - 1) (total - 1) + 1 - st))
        (List.range' s k cs)
      = List.range' s (min (s + k * cs) total - s) := by
  intro k
  induction k with
  | zero =>
    intro s
    have h0 : min (s + 0 * cs) total - s = 0 := by omega
    simp [listJoinMap, h0]
  | succ k ih =>
    intro s
    rw [List.range'_succ]
    show List.range' s (min (s + cs - 1) (total - 1) + 1 - s) ++
        listJoinMap _ (List.range' (s + cs) k cs) = _
    rw [ih (s + cs)]
    have hmul : (k + 1) * cs = k * cs + cs := by ring
    by_cases h : s + cs ≤ total
    · have hA : min (s + cs - 1) (total - 1) + 1 - s = cs := by omega
      have hM : min (s + cs + k * cs) total - (s + cs) =
          min (s + (k + 1) * cs) total - s - cs := by omega
      rw [hA, hM]
      have := range1_concat s cs (min (s + (k + 1) * cs) total - s - cs)
      rw [this]
      congr 1
      omega
    · have hA : min (s + cs - 1) (total - 1) + 1 - s = total - s := by omega
      have hM : min (s + cs + k * cs) total - (s + cs) = 0 := by omega
      have hR : min (s + (k + 1) * cs) total - s = total - s := by omega
      rw [hA, hM, hR]
      simp

/-- The chunk count `ceil(total / cs)` covers all pages. -/
theorem ceil_div_mul_ge (total cs : Nat) (hcs : 1 ≤ cs) (htot : 1 ≤ total) :
    total ≤ ((total + cs - 1) / cs) * cs := by
  have he : total + cs - 1 = (total - 1) + cs := by omega
  have h1 : (total + cs - 1) / cs = (total - 1) / cs + 1 := by
    rw [he, Nat.add_div_right _ hcs]
  have h3 : total - 1 < ((total - 1) / cs + 1) * cs :=
    (Nat.div_lt_iff_lt_mul hcs).1 (Nat.lt_succ_self _)
  rw [h1]
  omega

/-- C8: whenever the document opens, the chunked extraction path produces
exactly the page records of the plain PyMuPDF path — same page numbers,
same cleaned content lines, same per-page errors — and the same metadata
mapping (the result differs only in its `extraction_method` provenance
field). -/
theorem c8_chunked_equiv (cfg : ProcCfg) (env : ExtractEnv) (doc : PdfDoc)
    (h : env.pymupdfOpen = Except.ok doc) :
    (extract_text_in_chunks cfg env).text =
      (List.range doc.totalPages).map (extractPage doc) ∧
    extract_with_pymupdf env =
      Except.ok ((List.range doc.totalPages).map (extractPage doc)) ∧
    (extract_text_in_chunks cfg env).metadata =
      (if cfg.include_metadata then extract_metadata env else []) := by
  refine ⟨?_, ?_, ?_⟩
  · simp only [extract_text_in_chunks, h]
    by_cases htot : 1 ≤ doc.totalPages
    · set total := doc.totalPages with htotal
      set cs := min 20 (max 1 (total / 10)) with hcs
      have hcs1 : 1 ≤ cs := by omega
      have hpart := chunk_partition total cs hcs1 htot ((total - 0 + cs - 1) / cs) 0
      simp only [Nat.sub_zero, Nat.zero_add] at hpart
      have hcover : total ≤ ((total + cs - 1) / cs) * cs :=
        ceil_div_mul_ge total cs hcs1 htot
      have hmin : min (((total + cs - 1) / cs) * cs) total = total := by
        omega
      rw [hmin] at hpart
      calc listJoinMap
            (fun st => (List.range' st (min (st + cs - 1) (total - 1) + 1 - st)).map
              (extractPage doc))
            (pyRangeStep 0 total cs)
          = (listJoinMap
              (fun st => List.range' st (min (st + cs - 1) (total - 1) + 1 - st))
              (pyRangeStep 0 total cs)).map (extractPage doc) :=
            map_listJoinMap (extractPage doc) _ _
        _ = (List.range' 0 total).map (extractPage doc) := by
            unfold pyRangeStep
            simp only [Nat.sub_zero]
            rw [hpart]
        _ = (List.range total).map (extractPage doc) := by
            rw [List.range_eq_range']
    · have h0 : doc.totalPages = 0 := by omega
      simp [h0, pyRangeStep, listJoinMap]
  · simp [extract_with_pymupdf, h]
  · simp [extract_text_in_chunks, h]

/-- C8 witness: a concrete 25-page document (13 chunks of 2 pages, with
per-page errors sprinkled in) gives identical page records on both paths. -/
theorem c8_witness :
    (extract_text_in_chunks wCfg w8Env).text =
      (List.range w8Doc.totalPages).map (extractPage w8Doc) :=
  (c8_chunked_equiv wCfg w8Env w8Doc rfl).1

theorem noAdjb_iff_chain : ∀ l : List Char,
    noAdjacentWSb l = true ↔
      List.Chain' (fun a b => (!(pyIsSpace a && pyIsSpace b)) = true) l := by
  intro l
  induction l with
  | nil => simp [noAdjacentWSb]
  | cons a X ih =>
    cases X with
    | nil => simp [noAdjacentWSb]
    | cons b Y =>
      simp only [noAdjacentWSb, Bool.and_eq_true, List.chain'_cons]
      rw [ih]

theorem head_collapseWSAux_true :
    ∀ (l : List Char) (h : Char),
      (collapseWSAux true l).head? = some h → pyIsSpace h = false := by
  intro l
  induction l with
  | nil => intro h hh; simp [collapseWSAux] at hh
  | cons d rest ih =>
    intro h hh
    by_cases hd : pyIsSpace d
    · rw [show collapseWSAux true (d :: rest) = collapseWSAux true rest by
        simp [collapseWSAux, hd]] at hh
      exact ih h hh
    · rw [show collapseWSAux true (d :: rest) = d :: collapseWSAux false rest by
        simp [collapseWSAux, hd]] at hh
      simp only [List.head?_cons, Option.some.injEq] at hh
      subst hh
      simpa using hd

theorem chain_collapseWSAux :
    ∀ (l : List Char) (b : Bool),
      List.Chain' (fun a c => (!(pyIsSpace a && pyIsSpace c)) = true)
        (collapseWSAux b l) := by
  intro l
  induction l with
  | nil => intro b; simp [collapseWSAux]
  | cons d rest ih =>
    intro b
    by_cases hd : pyIsSpace d
    · cases b with
      | true =>
        rw [show collapseWSAux true (d :: rest) = collapseWSAux true rest by
          simp [collapseWSAux, hd]]
        exact ih true
      | false =>
        rw [show collapseWSAux false (d :: rest) = ' ' :: collapseWSAux true rest by
          simp [collapseWSAux, hd]]
        rw [List.chain'_cons']
        refine ⟨?_, ih true⟩
        intro y hy
        have hns := head_collapseWSAux_true rest y hy
        simp [hns]
    · have hstep : collapseWSAux b (d :: rest) = d :: collapseWSAux false rest := by
        cases b <;> simp [collapseWSAux, hd]
      rw [hstep, List.chain'_cons']
      refine ⟨?_, ih false⟩
      intro y hy
      have hdf : pyIsSpace d = false := by simpa using hd
      simp [hdf]

theorem mem_collapseWSAux {c : Char} :
    ∀ (l : List Char) (b : Bool), c ∈ collapseWSAux b l →
      c = ' ' ∨ (pyIsSpace c = false ∧ c ∈ l) := by
  intro l
  induction l with
  | nil => intro b h; simp [collapseWSAux] at h
  | cons d rest ih =>
    intro b h
    by_cases hd : pyIsSpace d
    · cases b with
      | true =>
        rw [show collapseWSAux true (d :: rest) = collapseWSAux true rest by
          simp [collapseWSAux, hd]] at h
        rcases ih true h with h1 | h1
        · exact Or.inl h1
        · exact Or.inr ⟨h1.1, List.mem_cons_of_mem _ h1.2⟩
      | false =>
        rw [show collapseWSAux false (d :: rest) = ' ' :: collapseWSAux true rest by
          simp [collapseWSAux, hd]] at h
        rcases List.mem_cons.mp h with h1 | h1
        · exact Or.inl h1
        · rcases ih true h1 with h2 | h2
          · exact Or.inl h2
          · exact Or.inr ⟨h2.1, List.mem_cons_of_mem _ h2.2⟩
    · have hstep : collapseWSAux b (d :: rest) = d :: collapseWSAux false rest := by
        cases b <;> simp [collapseWSAux, hd]
      rw [hstep] at h
      rcases List.mem_cons.mp h with h1 | h1
      · subst h1
        exact Or.inr ⟨by simpa using hd, List.mem_cons_self _ _⟩
      · rcases ih false h1 with h2 | h2
        · exact Or.inl h2
        · exact Or.inr ⟨h2.1, List.mem_cons_of_mem _ h2.2⟩

theorem chain_dropWhile {α : Type} {R : α → α → Prop} (p : α → Bool) :
    ∀ l : List α, List.Chain' R l → List.Chain' R (l.dropWhile p) := by
  intro l
  induction l with
  | nil => intro h; exact h
  | cons a X ih =>
    intro h
    rw [List.dropWhile_cons]
    by_cases hp : p a
    · rw [if_pos hp]
      exact ih (List.chain'_cons'.mp h).2
    · rw [if_neg hp]
      exact h

theorem head_dropWhile_not {α : Type} (p : α → Bool) :
    ∀ (l : List α) (h : α), (l.dropWhile p).head? = some h → p h = false := by
  intro l
  induction l with
  | nil => intro h hh; simp [List.dropWhile] at hh
  | cons a X ih =>
    intro h hh
    rw [List.dropWhile_cons] at hh
    by_cases hp : p a
    · rw [if_pos hp] at hh
      exact ih h hh
    · rw [if_neg hp] at hh
      simp only [List.head?_cons, Option.some.injEq] at hh
      subst hh
      simpa using hp

theorem getLast_dropWhile_of_ne_nil {α : Type} (p : α → Bool) :
    ∀ l : List α, l.dropWhile p ≠ [] →
      (l.dropWhile p).getLast? = l.getLast? := by
  intro l
  induction l with
  | nil => intro h; simp [List.dropWhile] at h
  | cons a X ih =>
    intro h
    rw [List.dropWhile_cons] at h ⊢
    by_cases hp : p a
    · rw [if_pos hp] at h ⊢
      have hX : X ≠ [] := by
        intro he
        rw [he] at h
        simp [List.dropWhile] at h
      rw [ih h]
      cases X with
      | nil => exact absurd rfl hX
      | cons b Y => rw [List.getLast?_cons_cons]
    · rw [if_neg hp]

theorem mem_pyStrip {c : Char} {l : List Char} (h : c ∈ pyStrip l) : c ∈ l := by
  unfold pyStrip at h
  have h1 := (List.dropWhile_sublist pyIsSpace).subset h
  rw [List.mem_reverse] at h1
  have h2 := (List.dropWhile_sublist pyIsSpace).subset h1
  rwa [List.mem_reverse] at h2

theorem chainWS_pyStrip {l : List Char}
    (h : List.Chain' (fun a b => (!(pyIsSpace a && pyIsSpace b)) = true) l) :
    List.Chain' (fun a b => (!(pyIsSpace a && pyIsSpace b)) = true) (pyStrip l) := by
  unfold pyStrip
  have hrev : ∀ m : List Char,
      List.Chain' (fun a b => (!(pyIsSpace a && pyIsSpace b)) = true) m →
      List.Chain' (fun a b => (!(pyIsSpace a && pyIsSpace b)) = true) m.reverse := by
    intro m hm
    rw [List.chain'_reverse]
    refine hm.imp ?_
    intro a b hab
    show (!(pyIsSpace b && pyIsSpace a)) = true
    rw [Bool.and_comm]
    exact hab
  exact chain_dropWhile pyIsSpace _ (hrev _ (chain_dropWhile pyIsSpace _ (hrev _ h)))

/-- C9 amended: `_clean_text` collapses the input's whitespace runs *before*
removing the ASCII control class, then strips; consequently the output
contains no character of the removed class and none of tab, newline or
carriage return (together: no ASCII control characters), starts and ends
with non-whitespace, and — provided the input contained no character of the
removed class, whose deletion can join two spaces — has no two adjacent
whitespace characters; the per-page loop drops exactly the lines that clean
to the empty string. -/
theorem c9_cleaning (s : String) (ls : List String) :
    (∀ c ∈ (pyCleanText s).toList,
      isRemovedCtrl c = false ∧ c ∉ (['\t', '\n', '\r'] : List Char)) ∧
    (∀ h, (pyCleanText s).toList.head? = some h → pyIsSpace h = false) ∧
    (∀ h, (pyCleanText s).toList.getLast? = some h → pyIsSpace h = false) ∧
    ((∀ c ∈ s.toList, isRemovedCtrl c = false) →
      noAdjacentWS (pyCleanText s).toList) ∧
    (∀ l ∈ cleanLines ls, l ≠ "") ∧
    (∀ l ∈ ls, pyCleanText l ≠ "" → pyCleanText l ∈ cleanLines ls) := by
  have hlines1 : ∀ l ∈ cleanLines ls, l ≠ "" := by
    intro l hl
    have := (List.mem_filter.mp hl).2
    exact bne_iff_ne.mp this
  have hlines2 : ∀ l ∈ ls, pyCleanText l ≠ "" → pyCleanText l ∈ cleanLines ls := by
    intro l hl hne
    exact List.mem_filter.mpr ⟨List.mem_map_of_mem _ hl, bne_iff_ne.mpr hne⟩
  by_cases hs : s = ""
  · subst hs
    refine ⟨?_, ?_, ?_, ?_, hlines1, hlines2⟩ <;> simp [pyCleanText, noAdjacentWS, noAdjacentWSb]
  · have htl : (pyCleanText s).toList = pyStrip (removeCtrl (collapseWS s.toList)) := by
      simp [pyCleanText, hs, String.toList]
    refine ⟨?_, ?_, ?_, ?_, hlines1, hlines2⟩
    · intro c hc
      rw [htl] at hc
      have hm := mem_pyStrip hc
      have hf := List.mem_filter.mp hm
      have hctrl : isRemovedCtrl c = false := by simpa using hf.2
      refine ⟨hctrl, ?_⟩
      rcases mem_collapseWSAux _ _ hf.1 with h1 | h1
      · subst h1; decide
      · intro hmem
        have hsp : pyIsSpace c = true := by
          simp only [List.mem_cons, List.not_mem_nil, or_false] at hmem
          rcases hmem with h2 | h2 | h2 <;> subst h2 <;> decide
        rw [h1.1] at hsp
        exact Bool.false_ne_true hsp
    · intro h hh
      rw [htl] at hh
      exact head_dropWhile_not pyIsSpace _ h hh
    · intro h hh
      rw [htl] at hh
      unfold pyStrip at hh
      by_cases hnil :
        (((removeCtrl (collapseWS s.toList)).reverse.dropWhile pyIsSpace).reverse).dropWhile
          pyIsSpace = []
      · rw [hnil] at hh
        simp at hh
      · rw [getLast_dropWhile_of_ne_nil pyIsSpace _ hnil, List.getLast?_reverse] at hh
        exact head_dropWhile_not pyIsSpace _ h hh
    · intro hnoctrl
      rw [noAdjacentWS, noAdjb_iff_chain, htl]
      have hid : removeCtrl (collapseWS s.toList) = collapseWS s.toList := by
        apply List.filter_eq_self.mpr
        intro c hc
        rcases mem_collapseWSAux _ _ hc with h1 | h1
        · subst h1; decide
        · simp [hnoctrl c h1.2]
      rw [hid]
      exact chainWS_pyStrip (chain_collapseWSAux s.toList false)

/-- C9 counterexample: on the line `"a \x00 b\x9c"` the code returns
`"a  b\x9c"` — the NUL is removed after whitespace collapsing, leaving two
adjacent spaces, and the C1 control character U+009C survives — so the
claim that every returned line has all whitespace runs collapsed to a
single space and all non-printable control characters removed is false. -/
theorem c9_counterexample :
    pyCleanText "a \x00 b\x9c" = String.mk ['a', ' ', ' ', 'b', '\x9c'] ∧
    ¬ noAdjacentWS (pyCleanText "a \x00 b\x9c").toList ∧
    '\x9c' ∈ (pyCleanText "a \x00 b\x9c").toList := by
  decide

/-- C9 witness: a control-free line cleans with all whitespace runs
collapsed. -/
theorem c9_witness : noAdjacentWS (pyCleanText "x \t\ty").toList :=
  (c9_cleaning "x \t\ty" []).2.2.2.1 (by decide)

theorem getLastD_mem : ∀ (l : List Int) (d : Int), l.getLastD d ∈ d :: l := by
  intro l
  induction l with
  | nil => intro d; simp [List.getLastD]
  | cons a X ih =>
    intro d
    rw [List.getLastD_cons]
    have h := ih a
    rcases List.mem_cons.mp h with h1 | h1
    · rw [h1]; simp
    · exact List.mem_cons_of_mem _ (List.mem_cons_of_mem _ h1)

theorem lastTime_mem (a : Int) (X : List Int) : lastTime (a :: X) ∈ a :: X := by
  show (a :: X).getLastD 0 ∈ a :: X
  rw [List.getLastD_cons]
  exact getLastD_mem X a

/-- Feeding further same-window requests from one client into a store that
already holds its entry fills the entry up to `maxR` admitted times and
rejects everything after. -/
theorem rlRun_saturate (maxR : Nat) (w : Int) (c : String) (lo : Int) :
    ∀ (ts acc : List Int), acc ≠ [] →
      (∀ x ∈ acc, lo ≤ x) →
      (∀ t ∈ ts, lo ≤ t ∧ t - lo < w) →
      rlRun maxR w [(c, acc)] c ts =
        ([(c, acc ++ ts.take (maxR - acc.length))],
         List.replicate (min (maxR - acc.length) ts.length) true ++
           List.replicate (ts.length - (maxR - acc.length)) false) := by
  intro ts
  induction ts with
  | nil => intro acc h1 h2 h3; simp [rlRun]
  | cons t ts ih =>
    intro acc h1 h2 h3
    have hlast : lo ≤ lastTime acc := by
      cases acc with
      | nil => exact absurd rfl h1
      | cons a X => exact h2 _ (lastTime_mem a X)
    have ht := h3 t (List.mem_cons_self _ _)
    have hkeep : t - lastTime acc < w := by omega
    have hclean : rlCleanup w t [(c, acc)] = [(c, acc)] := by
      simp [rlCleanup, hkeep]
    have hlook : rlLookup [(c, acc)] c = some acc := by
      simp [rlLookup]
    have h3' : ∀ u ∈ ts, lo ≤ u ∧ u - lo < w :=
      fun u hu => h3 u (List.mem_cons_of_mem _ hu)
    by_cases hfull : maxR ≤ acc.length
    · have hdisp : rlDispatch maxR w [(c, acc)] c t = ([(c, acc)], false) := by
        simp [rlDispatch, hclean, hlook, hfull]
      have hrest := ih acc h1 h2 h3'
      simp only [rlRun, hdisp, hrest]
      have h0 : maxR - acc.length = 0 := by omega
      simp [h0, List.replicate_succ]
    · have hdisp : rlDispatch maxR w [(c, acc)] c t = ([(c, acc ++ [t])], true) := by
        simp [rlDispatch, hclean, hlook, hfull, rlAppend]
      have h2' : ∀ x ∈ acc ++ [t], lo ≤ x := by
        intro x hx
        rcases List.mem_append.mp hx with h | h
        · exact h2 x h
        · simp at h; subst h; exact ht.1
      have hrest := ih (acc ++ [t]) (by simp) h2' h3'
      simp only [rlRun, hdisp, hrest]
      have hk : maxR - acc.length = (maxR - (acc.length + 1)) + 1 := by omega
      have hmin : min (maxR - acc.length) (ts.length + 1) =
          min (maxR - (acc.length + 1)) ts.length + 1 := by omega
      have hsub : (ts.length + 1) - (maxR - acc.length) =
          ts.length - (maxR - (acc.length + 1)) := by omega
      rw [Prod.mk.injEq]
      constructor
      · rw [List.length_append, List.length_singleton, hk, List.take_succ_cons]
        simp [List.append_assoc]
      · rw [List.length_append, List.length_singleton, List.length_cons,
          hmin, hsub, List.replicate_succ]
        simp

/-- C10: starting from an empty window store, `maxR + 1` requests from one
client arriving inside one window are admitted for the first `maxR` and
rejected for the last; any further request still inside the window is
rejected, and a request arriving a full window after the client's last
admitted request is admitted again. -/
theorem c10_rate_limiter (maxR : Nat) (w : Int) (c : String) (lo : Int)
    (ts : List Int) (hmax : 1 ≤ maxR) (hlen : ts.length = maxR + 1)
    (hwin : ∀ t ∈ ts, lo ≤ t ∧ t - lo < w) :
    (rlRun maxR w [] c ts).2 = List.replicate maxR true ++ [false] ∧
    (rlRun maxR w [] c ts).1 = [(c, ts.take maxR)] ∧
    (∀ u : Int, lo ≤ u → u - lo < w →
      (rlDispatch maxR w (rlRun maxR w [] c ts).1 c u).2 = false) ∧
    (∀ v : Int, w ≤ v - lastTime (ts.take maxR) →
      (rlDispatch maxR w (rlRun maxR w [] c ts).1 c v).2 = true) := by
  obtain ⟨m, rfl⟩ : ∃ m, maxR = m + 1 := ⟨maxR - 1, by omega⟩
  cases ts with
  | nil => simp at hlen
  | cons t0 rest =>
    have ht0 := hwin t0 (List.mem_cons_self _ _)
    have hd0 : rlDispatch (m + 1) w [] c t0 = ([(c, [t0])], true) := by
      simp [rlDispatch, rlCleanup, rlLookup]
    have hsat := rlRun_saturate (m + 1) w c lo rest [t0] (by simp)
      (by intro x hx; simp at hx; subst hx; exact ht0.1)
      (fun u hu => hwin u (List.mem_cons_of_mem _ hu))
    have hrlen : rest.length = m + 1 := by
      simpa using hlen
    have hrun : rlRun (m + 1) w [] c (t0 :: rest) =
        ([(c, t0 :: rest.take m)],
         true :: (List.replicate (min m rest.length) true ++
           List.replicate (rest.length - m) false)) := by
      simp only [rlRun, hd0, hsat]
      simp
    have htake : (t0 :: rest).take (m + 1) = t0 :: rest.take m := by
      rw [List.take_succ_cons]
    have hboolmin : min m rest.length = m := by omega
    have hboolsub : rest.length - m = 1 := by omega
    have hbools : (rlRun (m + 1) w [] c (t0 :: rest)).2 =
        List.replicate (m + 1) true ++ [false] := by
      rw [hrun, hboolmin, hboolsub]
      simp [List.replicate_succ]
    have hstate : (rlRun (m + 1) w [] c (t0 :: rest)).1 =
        [(c, (t0 :: rest).take (m + 1))] := by
      rw [hrun, htake]
    refine ⟨hbools, hstate, ?_, ?_⟩
    · intro u hu1 hu2
      rw [hstate, htake]
      have hlaste : lastTime (t0 :: rest.take m) ∈ t0 :: rest.take m :=
        lastTime_mem _ _
      have hemem : lastTime (t0 :: rest.take m) ∈ t0 :: rest := by
        rcases List.mem_cons.mp hlaste with h1 | h1
        · rw [h1]; exact List.mem_cons_self _ _
        · exact List.mem_cons_of_mem _ (List.take_subset _ _ h1)
      have hlo : lo ≤ lastTime (t0 :: rest.take m) := (hwin _ hemem).1
      have hkeep : u - lastTime (t0 :: rest.take m) < w := by omega
      have helen : (t0 :: rest.take m).length = m + 1 := by
        simp [List.length_take]
        omega
      simp [rlDispatch, rlCleanup, rlLookup, hkeep, helen]
    · intro v hv
      rw [htake] at hv
      rw [hstate, htake]
      have hdrop : ¬ (v - lastTime (t0 :: rest.take m) < w) := by omega
      simp [rlDispatch, rlCleanup, rlLookup, hdrop]

/-- C10 witness: with the mounted parameters (5 requests per 10-second
window), six quick requests admit five then reject; a request at 6 is still
rejected, one at 14 (ten past the last admitted request at 4) is admitted. -/
theorem c10_witness :
    (rlRun apiMaxRequests apiWindowSeconds [] "10.0.0.7" [0, 1, 2, 3, 4, 5]).2 =
      List.replicate 5 true ++ [false] ∧
    (rlDispatch apiMaxRequests apiWindowSeconds
      (rlRun apiMaxRequests apiWindowSeconds [] "10.0.0.7" [0, 1, 2, 3, 4, 5]).1
      "10.0.0.7" 6).2 = false ∧
    (rlDispatch apiMaxRequests apiWindowSeconds
      (rlRun apiMaxRequests apiWindowSeconds [] "10.0.0.7" [0, 1, 2, 3, 4, 5]).1
      "10.0.0.7" 14).2 = true := by
  have h := c10_rate_limiter 5 10 "10.0.0.7" 0 [0, 1, 2, 3, 4, 5]
    (by decide) (by decide) (by decide)
  exact ⟨h.1, h.2.2.1 6 (by decide) (by decide), h.2.2.2 14 (by decide)⟩

end Klinchainx
